import Mathlib

/-!
Shallow embedding of the bulk-SMS dispatch and delivery-retry engine
(`app/celery_tasks.py`, `app/services.py`, `app/api/campaigns.py`,
`app/models/campaign.py`, `app/config.py`) and proofs about the claims
of its specification.

Conventions of the embedding:
* database rows become Lean structures; the database session becomes an
  explicit state `St` holding the three row lists;
* SQLAlchemy `query(...).filter(...).first()` becomes `List.find?`;
  mutating the ORM object returned by `.first()` and committing becomes
  `updateFirst` on the list; mutating every row of a `.all()` result
  becomes a `List.map` guarded by the query predicate;
* every `db.commit()` is a commit point: task models return the list of
  intermediate committed states together with the final state, so that
  externally observable intermediate states can be reasoned about;
* Celery `task.delay(...)`, `self.retry(countdown=...)` and
  `time.sleep(...)` become explicit `TaskAction` values;
* wall-clock instants (`datetime.now`) are an abstract `now : Nat`
  supplied by the caller; only presence (`some`) of timestamps matters;
* the HTTP interaction of `httpx.get` + `raise_for_status` + `.json()`
  is an oracle value `GetOutcome` supplied to the gateway client.
-/

namespace BulkSms

/-- Message delivery status enumeration (`app/models/campaign.py`, `MessageStatus`). -/
inductive MessageStatus where
  | PENDING
  | QUEUED
  | SENDING
  | SENT
  | DELIVERED
  | FAILED
  | INVALID_NUMBER
  deriving DecidableEq, Repr

/-- Campaign status enumeration (`app/models/campaign.py`, `CampaignStatus`). -/
inductive CampaignStatus where
  | DRAFT
  | PROCESSING
  | IN_PROGRESS
  | COMPLETED
  | FAILED
  | CANCELLED
  deriving DecidableEq, Repr

/-- The result dictionary produced by `ArkeselSMSClient.send_sms`: always a
`success` flag, plus `error` / `http_status` keys and, on success, the
provider's decoded JSON payload. -/
structure SmsResult where
  success : Bool
  error : Option String
  http_status : Option Nat
  payload : List (String × String)
  deriving DecidableEq, Repr

/-- `Contact` row (`app/models/campaign.py`).  `custom_fields` is the JSON
object used for template interpolation, modelled as string pairs. -/
structure Contact where
  id : Nat
  campaign_id : Nat
  name : String
  phone_number : String
  custom_fields : List (String × String)
  is_valid : Bool
  validation_error : Option String
  deriving DecidableEq, Repr

/-- `Message` row (`app/models/campaign.py`).  Timestamps are abstract
instants. -/
structure Message where
  id : Nat
  campaign_id : Nat
  contact_id : Nat
  message_text : String
  sender_id : String
  status : MessageStatus
  api_response : Option SmsResult
  error_message : Option String
  retry_count : Nat
  queued_at : Option Nat
  sent_at : Option Nat
  failed_at : Option Nat
  deriving DecidableEq, Repr

/-- `Campaign` row (`app/models/campaign.py`).  `error_log` models the JSON
error record `{'error': ..., 'timestamp': ...}`. -/
structure Campaign where
  id : Nat
  name : String
  message_template : String
  sender_id : String
  status : CampaignStatus
  total_contacts : Nat
  total_sent : Nat
  total_delivered : Nat
  total_failed : Nat
  total_pending : Nat
  started_at : Option Nat
  completed_at : Option Nat
  error_log : Option (String × Nat)
  deriving DecidableEq, Repr

/-- Relevant SMS settings (`app/config.py`, class `Settings`), with the
defaults declared there. -/
structure Settings where
  sms_rate_limit : Nat := 60
  sms_batch_size : Nat := 100
  sms_retry_attempts : Nat := 3
  sms_retry_delay : Nat := 5
  deriving DecidableEq, Repr

/-- The global `settings` object with config defaults. -/
def settings : Settings := {}

/-- The database state: the three row tables consumed and mutated by the
core. -/
structure St where
  campaigns : List Campaign
  contacts : List Contact
  messages : List Message
  deriving DecidableEq, Repr

/-- `db.query(X).filter(X.id == i).first()` -/
def campaignFind (st : St) (cid : Nat) : Option Campaign :=
  st.campaigns.find? (fun c => c.id == cid)

def contactFind (st : St) (ctid : Nat) : Option Contact :=
  st.contacts.find? (fun c => c.id == ctid)

def msgFind (st : St) (mid : Nat) : Option Message :=
  st.messages.find? (fun m => m.id == mid)

/-- Mutating the single ORM object returned by a `.first()` query and
committing: rewrite the first row matching the predicate. -/
def updateFirst (p : α → Bool) (f : α → α) : List α → List α
  | [] => []
  | a :: l => if p a then f a :: l else a :: updateFirst p f l

def updateCampaign (st : St) (cid : Nat) (f : Campaign → Campaign) : St :=
  { st with campaigns := updateFirst (fun c => c.id == cid) f st.campaigns }

def updateMessage (st : St) (mid : Nat) (f : Message → Message) : St :=
  { st with messages := updateFirst (fun m => m.id == mid) f st.messages }

/-! ## Gateway Client (`ArkeselSMSClient.send_sms`) -/

/-- Oracle for one `httpx.get` interaction, covering every case the client
distinguishes: a response arrived (with HTTP status and, when `jsonValid`,
a decodable JSON body — a non-2xx status later raises
`httpx.HTTPStatusError`, the one `httpx.HTTPError` that carries the
response), the request timed out (`httpx.TimeoutException`), another
`httpx.HTTPError` was raised by the transport before any response existed
(`httpx.ConnectError` and the like, which carry no `response` attribute),
or an arbitrary non-httpx exception was raised. -/
inductive GetOutcome where
  | ok (status : Nat) (jsonValid : Bool) (body : List (String × String))
  | timeoutExc
  | httpExc (msg : String)
  | otherExc (msg : String)
  deriving DecidableEq, Repr

/-- Abstraction of `str(e)` for the `httpx.HTTPStatusError` raised by
`response.raise_for_status()` on a non-2xx status. -/
def statusErrorText (status : Nat) : String :=
  "HTTP status error " ++ toString status

/-- Abstraction of `str(e)` for the JSON decoding error raised by
`response.json()` on an undecodable body. -/
def jsonDecodeErrorText : String :=
  "JSON decode error"

/-- Abstraction of `str(e)` for the `AttributeError` raised inside the
`except httpx.HTTPError` handler when `e.response` is accessed on an
exception that has no `response` attribute. -/
def attributeErrorText : String :=
  "AttributeError: object has no attribute response"

/-- `ArkeselSMSClient.send_sms` (app/celery_tasks.py lines 49-92).
`raise_for_status` raises for non-2xx an `httpx.HTTPStatusError`, whose
`response` the handler reads back, so that case returns a failure dict
carrying the status code; a JSON decode failure is not an
`httpx.HTTPError` and falls to the generic handler.  But the
`except httpx.HTTPError` handler builds
`getattr(e.response, 'status_code', None)` — Python evaluates
`e.response` before calling `getattr`, and only `HTTPStatusError` has a
`response` attribute, so for a transport-level `httpx.HTTPError`
(connection errors and the like) the handler itself raises
`AttributeError`, which propagates to the caller: the method is *not*
total, modelled by the `Except.error` result. -/
def send_sms (o : GetOutcome) : Except String SmsResult :=
  match o with
  | .ok status jsonValid body =>
      if 200 ≤ status ∧ status < 300 then
        if jsonValid then
          .ok { success := true, error := none, http_status := some status,
                payload := body }
        else
          .ok { success := false, error := some jsonDecodeErrorText,
                http_status := none, payload := [] }
      else
        .ok { success := false, error := some (statusErrorText status),
              http_status := some status, payload := [] }
  | .timeoutExc =>
      .ok { success := false, error := some "Request timeout",
            http_status := none, payload := [] }
  | .httpExc _ =>
      .error attributeErrorText
  | .otherExc msg =>
      .ok { success := false, error := some msg, http_status := none,
            payload := [] }

/-! ## Stats Aggregator (`update_campaign_stats`) -/

/-- Result dict of `update_campaign_stats`: either the campaign was not
found, or the recomputed counters are reported. -/
inductive StatsResult where
  | campaignNotFound
  | ok (total_sent total_failed total_pending : Nat)
  deriving DecidableEq, Repr

/-- `sum(1 for m in messages if m.status in [SENT, DELIVERED])` -/
def countSent (msgs : List Message) : Nat :=
  msgs.countP (fun m =>
    m.status == MessageStatus.SENT || m.status == MessageStatus.DELIVERED)

/-- `sum(1 for m in messages if m.status == DELIVERED)` -/
def countDelivered (msgs : List Message) : Nat :=
  msgs.countP (fun m => m.status == MessageStatus.DELIVERED)

/-- `sum(1 for m in messages if m.status in [FAILED, INVALID_NUMBER])` -/
def countFailed (msgs : List Message) : Nat :=
  msgs.countP (fun m =>
    m.status == MessageStatus.FAILED || m.status == MessageStatus.INVALID_NUMBER)

/-- `sum(1 for m in messages if m.status == PENDING)` -/
def countPending (msgs : List Message) : Nat :=
  msgs.countP (fun m => m.status == MessageStatus.PENDING)

/-- The campaign-row mutation of `update_campaign_stats`: overwrite the
four counters from the message buckets and, when nothing is pending and
the campaign is `IN_PROGRESS`, complete it. -/
def statsApply (now : Nat) (msgs : List Message) (c : Campaign) : Campaign :=
  let c' := { c with total_sent := countSent msgs,
                     total_delivered := countDelivered msgs,
                     total_failed := countFailed msgs,
                     total_pending := countPending msgs }
  if countPending msgs = 0 ∧ c'.status = CampaignStatus.IN_PROGRESS then
    { c' with status := CampaignStatus.COMPLETED, completed_at := some now }
  else c'

/-- `update_campaign_stats` (app/celery_tasks.py lines 269-313): loads all
messages of the campaign, overwrites the campaign's counters by status
bucket, and, when `total_pending` is zero and the campaign is
`IN_PROGRESS`, transitions it to `COMPLETED` with `completed_at`. -/
def update_campaign_stats (st : St) (now : Nat) (cid : Nat) : St × StatsResult :=
  match campaignFind st cid with
  | none => (st, .campaignNotFound)
  | some _ =>
      let msgs := st.messages.filter (fun m => m.campaign_id == cid)
      (updateCampaign st cid (statsApply now msgs),
       .ok (countSent msgs) (countFailed msgs) (countPending msgs))

/-! ## Task side effects -/

/-- Externally visible side effects of the tasks: `send_single_sms.delay`,
`send_bulk_sms.delay`, `update_campaign_stats.delay`,
`self.retry(countdown=...)` and `time.sleep(...)`. -/
inductive TaskAction where
  | enqueueSend (mid : Nat)
  | enqueueBulk (cid : Nat)
  | enqueueStats (cid : Nat)
  | scheduleRetry (mid : Nat) (countdown : Nat)
  | sleepFor (seconds : ℚ)
  deriving DecidableEq, Repr

/-- One task execution: the intermediate committed states (every
`db.commit()` before the last one), the final state, the emitted side
effects, and the returned result dict. -/
structure TaskRun where
  commits : List St
  final : St
  actions : List TaskAction
  result : SmsResult
  deriving DecidableEq, Repr

/-! ## Send Worker (`send_single_sms`) -/

/-- Lines 123-127: invalid contact → terminal `INVALID_NUMBER` with the
contact's stored validation error. -/
def markInvalid (now : Nat) (c : Contact) (m : Message) : Message :=
  { m with status := MessageStatus.INVALID_NUMBER,
           error_message := c.validation_error,
           failed_at := some now }

/-- Lines 130-133: flip to `SENDING` and stamp `queued_at` before the
gateway call. -/
def markSending (now : Nat) (m : Message) : Message :=
  { m with status := MessageStatus.SENDING, queued_at := some now }

/-- Lines 143-156: store the raw gateway result and flip to `SENT` or, on
a gateway-reported failure, to `FAILED` with incremented `retry_count`. -/
def applyGatewayResult (now : Nat) (result : SmsResult) (m : Message) : Message :=
  let m' := { m with api_response := some result }
  if result.success then
    { m' with status := MessageStatus.SENT, sent_at := some now }
  else
    { m' with status := MessageStatus.FAILED,
              error_message := some (result.error.getD "Unknown error"),
              failed_at := some now,
              retry_count := m'.retry_count + 1 }

/-- Lines 168-173: the `except` handler marks the message `FAILED` with
`str(e)` and increments `retry_count`. -/
def markFailedExc (now : Nat) (err : String) (m : Message) : Message :=
  { m with status := MessageStatus.FAILED,
           error_message := some err,
           failed_at := some now,
           retry_count := m.retry_count + 1 }

/-- `send_single_sms` (app/celery_tasks.py lines 96-179), the run in which
no unexpected exception is raised outside the gateway call; the gateway
interaction is the oracle `o`.  Branches: message missing, contact
missing, invalid contact (terminal `INVALID_NUMBER`, no gateway call),
and the send proper: commit `SENDING` + `queued_at`, call the gateway
client.  When the client *returns* (a success or failure dict), the raw
result is stored and the message flips to `SENT` or to `FAILED` with
incremented `retry_count`, is committed, and a stats pass is enqueued —
a returned failure dict never reaches the task's `except` handler.  When
the client *raises* (the `AttributeError` of its HTTP-error handler), the
task's `except` handler (lines 164-179) marks the message `FAILED`,
commits, and re-raises via `self.retry` iff the incremented count is
below `sms_retry_attempts`; no stats pass is enqueued. -/
def send_single_sms (s : Settings) (st : St) (now : Nat) (o : GetOutcome)
    (mid : Nat) : TaskRun :=
  match msgFind st mid with
  | none =>
      ⟨[], st, [],
       { success := false, error := some "Message not found", http_status := none, payload := [] }⟩
  | some msg =>
      match contactFind st msg.contact_id with
      | none =>
          ⟨[], st, [],
           { success := false, error := some "Contact not found", http_status := none, payload := [] }⟩
      | some contact =>
          if contact.is_valid = false then
            let st1 := updateMessage st mid (markInvalid now contact)
            ⟨[], st1, [],
             { success := false, error := some "Invalid phone number", http_status := none, payload := [] }⟩
          else
            let st1 := updateMessage st mid (markSending now)
            match send_sms o with
            | .ok result =>
                let st2 := updateMessage st1 mid (applyGatewayResult now result)
                ⟨[st1], st2, [.enqueueStats msg.campaign_id], result⟩
            | .error e =>
                let st2 := updateMessage st1 mid (markFailedExc now e)
                if msg.retry_count + 1 < s.sms_retry_attempts then
                  ⟨[st1], st2,
                   [.scheduleRetry mid
                     (s.sms_retry_delay * 2 ^ (msg.retry_count + 1))],
                   { success := false, error := some e, http_status := none, payload := [] }⟩
                else
                  ⟨[st1], st2, [],
                   { success := false, error := some e, http_status := none, payload := [] }⟩

/-- `send_single_sms`, the run in which an unexpected exception with text
`err` is raised inside the `try` block after the message was loaded
(app/celery_tasks.py lines 164-179).  `afterSending` marks the exception
as occurring after the `SENDING` commit of line 133 — a point reachable
only when the contact was found and valid.  The handler marks the message
`FAILED`, stores `str(e)`, stamps `failed_at`, increments `retry_count`,
commits, and re-raises via `self.retry` with countdown
`sms_retry_delay * 2 ** retry_count` (the already incremented count) iff
the incremented count is below `sms_retry_attempts`.  No stats pass is
enqueued on this path. -/
def send_single_sms_exc (s : Settings) (st : St) (now : Nat) (err : String)
    (afterSending : Bool) (mid : Nat) : TaskRun :=
  match msgFind st mid with
  | none =>
      ⟨[], st, [],
       { success := false, error := some err, http_status := none, payload := [] }⟩
  | some msg =>
      let proceed := afterSending &&
        (match contactFind st msg.contact_id with
         | some c => c.is_valid
         | none => false)
      let stPre :=
        if proceed then updateMessage st mid (markSending now) else st
      let preCommits := if proceed then [stPre] else []
      let stF := updateMessage stPre mid (markFailedExc now err)
      if msg.retry_count + 1 < s.sms_retry_attempts then
        ⟨preCommits, stF,
         [.scheduleRetry mid (s.sms_retry_delay * 2 ^ (msg.retry_count + 1))],
         { success := false, error := some err, http_status := none, payload := [] }⟩
      else
        ⟨preCommits, stF, [],
         { success := false, error := some err, http_status := none, payload := [] }⟩

/-! ## RetryFailed (`retry_failed_messages`) -/

/-- The selection of `retry_failed_messages`: `FAILED` messages of the
campaign whose `retry_count` is below `sms_retry_attempts`. -/
def retryPred (s : Settings) (cid : Nat) (m : Message) : Bool :=
  m.campaign_id == cid && m.status == MessageStatus.FAILED &&
    m.retry_count < s.sms_retry_attempts

/-- Run of `retry_failed_messages` (app/celery_tasks.py lines 317-354):
final state, enqueued send jobs, and the returned `total_retried`. -/
structure RetryRun where
  final : St
  actions : List TaskAction
  success : Bool
  total_retried : Nat
  deriving DecidableEq, Repr

/-- Lines 340-342: reset a selected message to `PENDING`, clearing the
error text; `retry_count` is left as it is. -/
def resetForRetry (m : Message) : Message :=
  { m with status := MessageStatus.PENDING, error_message := none }

/-- `retry_failed_messages`: queries the qualifying messages, then resets
each to `PENDING` with `error_message = None` (leaving `retry_count`
untouched) and enqueues one `send_single_sms` job per message, then
commits once.  The mutation loop runs over the rows selected by the
query, so over the whole table it is the query predicate deciding which
rows change. -/
def retry_failed_messages (s : Settings) (st : St) (cid : Nat) : RetryRun :=
  let selected := st.messages.filter (retryPred s cid)
  let st' := { st with
    messages := st.messages.map (fun m =>
      if retryPred s cid m then resetForRetry m else m) }
  ⟨st', selected.map (fun m => .enqueueSend m.id), true, selected.length⟩

/-! ## Dispatch Orchestrator (`send_bulk_sms` and the API layer) -/

/-- Result dict of `send_bulk_sms`. -/
inductive BulkResult where
  | campaignNotFound
  | noPendingMessages
  | queuedAll (total_queued : Nat)
  | bulkError (err : String)
  deriving DecidableEq, Repr

/-- The `success` key of a `send_bulk_sms` result dict. -/
def BulkResult.successFlag : BulkResult → Bool
  | .campaignNotFound => false
  | .noPendingMessages => true
  | .queuedAll _ => true
  | .bulkError _ => false

/-- The `total_sent` key of a `send_bulk_sms` result dict (present only in
the no-pending-messages result, where it reports zero). -/
def BulkResult.totalSent : BulkResult → Option Nat
  | .noPendingMessages => some 0
  | _ => none

/-- Run of `send_bulk_sms`: intermediate commits, final state, actions
(enqueues and sleeps, in program order), result. -/
structure BulkRun where
  commits : List St
  final : St
  actions : List TaskAction
  result : BulkResult
  deriving DecidableEq, Repr

/-- The batching loop of `send_bulk_sms` (app/celery_tasks.py lines
231-245): `for i in range(0, total, b)` enqueues one send job per message
of `messages[i:i+b]` and then, when `i + b < total` (i.e. a further batch
remains, equivalently `b` is less than the length of the remaining
suffix), sleeps `(b / rate) * 60` seconds.  The recursion consumes the
remaining suffix; `fuel` bounds it by the list length (the loop advances
by `b ≥ 1` each iteration). -/
def loopActions (b : Nat) (rate : Nat) : Nat → List Nat → List TaskAction
  | _, [] => []
  | 0, _ :: _ => []
  | fuel + 1, x :: xs =>
      ((x :: xs).take b).map .enqueueSend
        ++ (if b < (x :: xs).length
            then [.sleepFor (((b : ℚ) / (rate : ℚ)) * 60)]
            else [])
        ++ loopActions b rate fuel ((x :: xs).drop b)

/-- Lines 206-207: the campaign is started. -/
def markInProgress (now : Nat) (c : Campaign) : Campaign :=
  { c with status := CampaignStatus.IN_PROGRESS, started_at := some now }

/-- Lines 222-223: the campaign is completed. -/
def markCompleted (now : Nat) (c : Campaign) : Campaign :=
  { c with status := CampaignStatus.COMPLETED, completed_at := some now }

/-- Lines 261-262: the `except` handler of `send_bulk_sms` fails the
campaign with an error record. -/
def markCampaignFailed (now : Nat) (err : String) (c : Campaign) : Campaign :=
  { c with status := CampaignStatus.FAILED, error_log := some (err, now) }

/-- Ids of the campaign's `PENDING` messages, in table order — the rows
the `send_bulk_sms` query returns. -/
def pendingIds (st : St) (cid : Nat) : List Nat :=
  (st.messages.filter (fun m =>
    m.campaign_id == cid && m.status == MessageStatus.PENDING)).map (fun m => m.id)

/-- `send_bulk_sms` (app/celery_tasks.py lines 182-254), exception-free
run.  `batch_size or settings.sms_batch_size` treats both `None` and `0`
as absent.  The task first commits the campaign to `IN_PROGRESS` with
`started_at`; with no pending messages it commits `COMPLETED` with
`completed_at` and returns the zero-sent success dict; otherwise it
enqueues the pending ids in rate-paced batches and reports the queued
count. -/
def send_bulk_sms (s : Settings) (st : St) (now : Nat) (cid : Nat)
    (batch_size : Option Nat) : BulkRun :=
  let b := match batch_size with
    | none => s.sms_batch_size
    | some n => if n = 0 then s.sms_batch_size else n
  match campaignFind st cid with
  | none => ⟨[], st, [], .campaignNotFound⟩
  | some _ =>
      let st1 := updateCampaign st cid (markInProgress now)
      let ids := pendingIds st1 cid
      if ids.length = 0 then
        let st2 := updateCampaign st1 cid (markCompleted now)
        ⟨[st1], st2, [], .noPendingMessages⟩
      else
        ⟨[st1], st1, loopActions b s.sms_rate_limit ids.length ids, .queuedAll ids.length⟩

/-- `send_bulk_sms`, the run in which an unexpected exception with text
`err` is raised after the campaign was loaded (app/celery_tasks.py lines
256-265): the handler sets the campaign `FAILED` with an error record and
returns an error dict. -/
def send_bulk_sms_exc (st : St) (now : Nat) (err : String) (cid : Nat) : BulkRun :=
  match campaignFind st cid with
  | none => ⟨[], st, [], .campaignNotFound⟩
  | some _ =>
      let st' := updateCampaign st cid (markCampaignFailed now err)
      ⟨[], st', [], .bulkError err⟩

/-- Template interpolation at message-creation time
(`MessageService.create_messages_for_campaign`, app/services.py): each
custom field `{key}` is substituted, then the `{name}` placeholder. -/
def renderTemplate (tmpl : String) (c : Contact) : String :=
  let t := c.custom_fields.foldl
    (fun acc kv => acc.replace ("\x7b" ++ kv.1 ++ "\x7d") kv.2) tmpl
  t.replace "\x7bname\x7d" c.name

/-- The contacts eligible for materialization: contacts of the campaign
that are marked valid and do not already own a `Message` (the
`outerjoin(Message).where(Message.id == None)` anti-join — ownership is
global, `Message.contact_id` being unique). -/
def eligPred (st : St) (cid : Nat) (c : Contact) : Bool :=
  c.campaign_id == cid && c.is_valid &&
    !(st.messages.any (fun m => m.contact_id == c.id))

/-- The fresh `PENDING` message rows built for the eligible contacts, with
primary keys allocated from `nextId` and the text rendered once at
creation time. -/
def newMessages (camp : Campaign) (cid nextId : Nat)
    (eligible : List Contact) : List Message :=
  eligible.enum.map (fun ic =>
    { id := nextId + ic.1
      campaign_id := cid
      contact_id := ic.2.id
      message_text := renderTemplate camp.message_template ic.2
      sender_id := camp.sender_id
      status := MessageStatus.PENDING
      api_response := none
      error_message := none
      retry_count := 0
      queued_at := none
      sent_at := none
      failed_at := none : Message })

/-- `MessageService.create_messages_for_campaign` (app/services.py lines
364-416): `none` models the `ValueError` on a missing campaign; otherwise
one `PENDING` message per eligible contact is appended (ids allocated
from `nextId`) and the created count is returned. -/
def create_messages_for_campaign (st : St) (cid : Nat) (nextId : Nat) :
    Option (St × Nat) :=
  match campaignFind st cid with
  | none => none
  | some camp =>
      let newMsgs := newMessages camp cid nextId
        (st.contacts.filter (eligPred st cid))
      some ({ st with messages := st.messages ++ newMsgs }, newMsgs.length)

/-- The number of `Message` rows owned by a contact. -/
def msgsForContact (msgs : List Message) (ctid : Nat) : Nat :=
  msgs.countP (fun m => m.contact_id == ctid)

/-- app/api/campaigns.py line 411: the campaign is committed as
`PROCESSING` before the bulk task is enqueued. -/
def markProcessing (c : Campaign) : Campaign :=
  { c with status := CampaignStatus.PROCESSING }

/-- Result of the `execute_campaign` API endpoint
(app/api/campaigns.py lines 370-440). -/
inductive ExecResult where
  | http404NotFound
  | http400AlreadyRunning
  | http400NoValidContacts
  | http500 (err : String)
  | queuedOk (total_contacts : Nat) (estimated_minutes : ℚ)
  deriving DecidableEq, Repr

/-- `execute_campaign` (app/api/campaigns.py): rejects a missing campaign
(404) and an already `PROCESSING`/`IN_PROGRESS` campaign (400);
materializes messages (`materializeFails` is the oracle for a store
failure during materialization, whose exception is caught by the generic
handler, which rolls the session back and raises HTTP 500); rejects a
zero count (400, nothing was flushed); otherwise commits the campaign as
`PROCESSING` and enqueues the bulk task. -/
def execute_campaign (s : Settings) (st : St) (cid : Nat) (nextId : Nat)
    (materializeFails : Option String) : St × ExecResult × List TaskAction :=
  match campaignFind st cid with
  | none => (st, .http404NotFound, [])
  | some camp =>
      if camp.status = CampaignStatus.PROCESSING ∨
         camp.status = CampaignStatus.IN_PROGRESS then
        (st, .http400AlreadyRunning, [])
      else
        match materializeFails with
        | some err => (st, .http500 err, [])
        | none =>
            match create_messages_for_campaign st cid nextId with
            | none => (st, .http500 "Campaign not found", [])
            | some (st1, n) =>
                if n = 0 then
                  (st, .http400NoValidContacts, [])
                else
                  let st2 := updateCampaign st1 cid markProcessing
                  (st2, .queuedOk n ((n : ℚ) / (s.sms_rate_limit : ℚ)),
                   [.enqueueBulk cid])

/-! ## Operation traces

Commit-granular small-step semantics over the core operations, for the
temporal claims: every `db.commit()` of every task is an observable
state. -/

/-- One core operation: a send-worker execution with its gateway oracle, a
send-worker execution hitting an unexpected exception, a bulk dispatch, a
stats pass, or a bulk retry.  At-least-once delivery of the job queue is
modelled by the operation list being arbitrary: the same message id may
be processed any number of times. -/
inductive Op where
  | send (now : Nat) (o : GetOutcome) (mid : Nat)
  | sendExc (now : Nat) (err : String) (afterSending : Bool) (mid : Nat)
  | dispatch (now : Nat) (cid : Nat) (batch_size : Option Nat)
  | stats (now : Nat) (cid : Nat)
  | retryOp (cid : Nat)
  deriving DecidableEq, Repr

/-- Committed states of one operation: the intermediate commits and the
final state. -/
def opRun (s : Settings) (op : Op) (st : St) : List St × St :=
  match op with
  | .send now o mid =>
      let r := send_single_sms s st now o mid
      (r.commits, r.final)
  | .sendExc now err aft mid =>
      let r := send_single_sms_exc s st now err aft mid
      (r.commits, r.final)
  | .dispatch now cid bs =>
      let r := send_bulk_sms s st now cid bs
      (r.commits, r.final)
  | .stats now cid => ([], (update_campaign_stats st now cid).1)
  | .retryOp cid => ([], (retry_failed_messages s st cid).final)

/-- All committed states along a run of the given operations, the initial
state included. -/
def traceStates (s : Settings) : List Op → St → List St
  | [], st => [st]
  | op :: ops, st =>
      let r := opRun s op st
      st :: (r.1 ++ traceStates s ops r.2)

/-- The inductive invariant behind the no-revisit property for
`INVALID_NUMBER`: message `mid` exists, references contact `ctid`, is not
`SENDING`, and any contact row with id `ctid` is invalid.  The send
worker flips a message to `SENDING` only after finding its contact valid,
so states satisfying this are closed under every core operation. -/
def NoSendState (mid ctid : Nat) (st : St) : Prop :=
  (∃ m', msgFind st mid = some m' ∧ m'.contact_id = ctid ∧
    m'.status ≠ MessageStatus.SENDING) ∧
  (∀ c, contactFind st ctid = some c → c.is_valid = false)

/-! ## Sample rows used by concrete instances -/

/-- A valid sample contact. -/
def baseContact : Contact :=
  { id := 1, campaign_id := 1, name := "A", phone_number := "233200000001",
    custom_fields := [], is_valid := true, validation_error := none }

/-- A pending sample message owned by `baseContact`. -/
def baseMessage : Message :=
  { id := 1, campaign_id := 1, contact_id := 1, message_text := "hi",
    sender_id := "S", status := MessageStatus.PENDING, api_response := none,
    error_message := none, retry_count := 0, queued_at := none,
    sent_at := none, failed_at := none }

/-- A sample campaign in progress. -/
def baseCampaign : Campaign :=
  { id := 1, name := "c", message_template := "hi \x7bname\x7d", sender_id := "S",
    status := CampaignStatus.IN_PROGRESS, total_contacts := 1, total_sent := 0,
    total_delivered := 0, total_failed := 0, total_pending := 0,
    started_at := none, completed_at := none, error_log := none }

/-- A one-campaign, one-valid-contact, one-pending-message state. -/
def exSt : St :=
  { campaigns := [baseCampaign], contacts := [baseContact],
    messages := [baseMessage] }

/-- The failure dict the client returns for a 503 response. -/
def res503 : SmsResult :=
  { success := false, error := some (statusErrorText 503),
    http_status := some 503, payload := [] }

/-- The state after one, two and three unexpected-exception runs of the
send worker on the one-message state. -/
def exStExc1 : St := (send_single_sms_exc settings exSt 7 "e" false 1).final

def exStExc2 : St := (send_single_sms_exc settings exStExc1 8 "e" false 1).final

def exStExc3 : St := (send_single_sms_exc settings exStExc2 9 "e" false 1).final

/-- A retry scenario: one `FAILED` message below the cap, one at the cap,
one `SENT`. -/
def exStRetry : St :=
  { campaigns := [baseCampaign], contacts := [baseContact],
    messages :=
      [{ baseMessage with status := MessageStatus.FAILED, retry_count := 1,
                          error_message := some "x" },
       { baseMessage with id := 2, status := MessageStatus.FAILED,
                          retry_count := 3 },
       { baseMessage with id := 3, status := MessageStatus.SENT }] }

/-- A campaign whose single message is already `SENT`. -/
def exStZero : St :=
  { campaigns := [baseCampaign], contacts := [baseContact],
    messages := [{ baseMessage with status := MessageStatus.SENT }] }

/-- A message already `SENT`, with a valid contact. -/
def exStSent : St :=
  { campaigns := [baseCampaign], contacts := [baseContact],
    messages := [{ baseMessage with status := MessageStatus.SENT,
                                    sent_at := some 1 }] }

/-- A message terminal in `INVALID_NUMBER`, owned by an invalid contact. -/
def exStInv : St :=
  { campaigns := [baseCampaign],
    contacts := [{ baseContact with is_valid := false,
                                    validation_error := some "bad" }],
    messages := [{ baseMessage with status := MessageStatus.INVALID_NUMBER,
                                    error_message := some "bad",
                                    failed_at := some 1 }] }

/-- A run on the invalid-number state: a retry pass, a redelivered send
job, and an exception-path job. -/
def exStInvOps : List Op :=
  [Op.retryOp 1, Op.send 7 (GetOutcome.ok 200 true []) 1,
   Op.sendExc 8 "e" true 1]

/-- The committed states of that run. -/
def exStInvTrace : List St := traceStates settings exStInvOps exStInv

/-- A materialization scenario: two valid contacts, one invalid, no
messages yet. -/
def exStMat : St :=
  { campaigns := [{ baseCampaign with status := CampaignStatus.DRAFT }],
    contacts := [baseContact,
      { baseContact with id := 2, is_valid := false,
                         validation_error := some "bad number" },
      { baseContact with id := 3 }],
    messages := [] }

/-- A draft campaign about to be executed. -/
def exStDraft : St :=
  { campaigns := [{ baseCampaign with status := CampaignStatus.DRAFT }],
    contacts := [baseContact], messages := [] }

/-- Five pending messages for the pacing scenario. -/
def exStFive : St :=
  { campaigns := [baseCampaign], contacts := [baseContact],
    messages := [baseMessage,
      { baseMessage with id := 2 }, { baseMessage with id := 3 },
      { baseMessage with id := 4 }, { baseMessage with id := 5 }] }

/-- Consecutive batches of size `b` (last one possibly smaller), as cut by
`range(0, total, b)`.  `fuel` bounds the recursion by the list length;
with `b ≥ 1` it never runs out. -/
def chunksGo (b : Nat) : Nat → List Nat → List (List Nat)
  | _, [] => []
  | 0, _ :: _ => []
  | fuel + 1, x :: xs => ((x :: xs).take b) :: chunksGo b fuel ((x :: xs).drop b)

def chunks (b : Nat) (l : List Nat) : List (List Nat) :=
  chunksGo b l.length l

/-- Spec-side description of the paced enqueue stream, for comparison with
the code's `loopActions`: each batch is enqueued in order, with one pause
after every batch except the last. -/
def specPacedActions (pause : TaskAction) : List (List Nat) → List TaskAction
  | [] => []
  | [batch] => batch.map TaskAction.enqueueSend
  | batch :: rest =>
      batch.map TaskAction.enqueueSend ++ pause :: specPacedActions pause rest

/-! ## Helper lemmas: first-match queries against row updates -/

theorem updateFirst_find?_self (p : α → Bool) (f : α → α)
    (hf : ∀ a, p (f a) = p a) :
    ∀ l : List α, (updateFirst p f l).find? p = (l.find? p).map f := by
  intro l
  induction l with
  | nil => rfl
  | cons a l ih =>
      by_cases hp : p a
      · simp [updateFirst, hp, List.find?_cons, hf]
      · simp [updateFirst, hp, List.find?_cons, ih]

theorem updateFirst_find?_other (p q : α → Bool) (f : α → α)
    (hq : ∀ a, q a = true → p a = false)
    (hf : ∀ a, p (f a) = p a) :
    ∀ l : List α, (updateFirst q f l).find? p = l.find? p := by
  intro l
  induction l with
  | nil => rfl
  | cons a l ih =>
      by_cases hqa : q a
      · have hpa : p a = false := hq a hqa
        have hpfa : p (f a) = false := by rw [hf]; exact hpa
        simp [updateFirst, hqa, List.find?_cons, hpa, hpfa]
      · by_cases hpa : p a
        · simp [updateFirst, hqa, List.find?_cons, hpa]
        · simp [updateFirst, hqa, List.find?_cons, hpa, ih]

theorem map_find?_pres (p : α → Bool) (g : α → α)
    (hg : ∀ a, p (g a) = p a) :
    ∀ l : List α, (l.map g).find? p = (l.find? p).map g := by
  intro l
  induction l with
  | nil => rfl
  | cons a l ih =>
      by_cases hp : p a
      · have : p (g a) = true := by rw [hg]; exact hp
        simp [List.find?_cons, hp, this]
      · have : p (g a) = false := by rw [hg]; simpa using hp
        simp [List.find?_cons, hp, this, ih]

theorem campaignFind_updateCampaign_self (st : St) (cid : Nat)
    (f : Campaign → Campaign) (hf : ∀ c, (f c).id = c.id) :
    campaignFind (updateCampaign st cid f) cid = (campaignFind st cid).map f := by
  unfold campaignFind updateCampaign
  exact updateFirst_find?_self _ f (fun c => by simp [hf]) st.campaigns

theorem msgFind_updateMessage_self (st : St) (mid : Nat)
    (f : Message → Message) (hf : ∀ m, (f m).id = m.id) :
    msgFind (updateMessage st mid f) mid = (msgFind st mid).map f := by
  unfold msgFind updateMessage
  exact updateFirst_find?_self _ f (fun m => by simp [hf]) st.messages

theorem msgFind_updateMessage_other (st : St) (mid mid' : Nat)
    (f : Message → Message) (hf : ∀ m, (f m).id = m.id) (h : mid' ≠ mid) :
    msgFind (updateMessage st mid' f) mid = msgFind st mid := by
  unfold msgFind updateMessage
  refine updateFirst_find?_other _ _ f ?_ (fun m => by simp [hf]) st.messages
  intro m hm
  have : m.id = mid' := by simpa using hm
  simp [this, h]

@[simp] theorem updateMessage_campaigns (st : St) (mid : Nat) (f : Message → Message) :
    (updateMessage st mid f).campaigns = st.campaigns := rfl

@[simp] theorem updateMessage_contacts (st : St) (mid : Nat) (f : Message → Message) :
    (updateMessage st mid f).contacts = st.contacts := rfl

@[simp] theorem updateCampaign_messages (st : St) (cid : Nat) (f : Campaign → Campaign) :
    (updateCampaign st cid f).messages = st.messages := rfl

@[simp] theorem updateCampaign_contacts (st : St) (cid : Nat) (f : Campaign → Campaign) :
    (updateCampaign st cid f).contacts = st.contacts := rfl

/-- None of the row mutations of the tasks changes a message's primary
key, its campaign or its contact reference. -/
theorem markInvalid_id (now : Nat) (c : Contact) (m : Message) :
    (markInvalid now c m).id = m.id ∧
      (markInvalid now c m).contact_id = m.contact_id := ⟨rfl, rfl⟩

theorem markSending_id (now : Nat) (m : Message) :
    (markSending now m).id = m.id ∧
      (markSending now m).contact_id = m.contact_id := ⟨rfl, rfl⟩

theorem applyGatewayResult_id (now : Nat) (r : SmsResult) (m : Message) :
    (applyGatewayResult now r m).id = m.id ∧
      (applyGatewayResult now r m).contact_id = m.contact_id := by
  unfold applyGatewayResult
  dsimp only
  split <;> exact ⟨rfl, rfl⟩

/-- `applyGatewayResult` on a gateway-reported failure. -/
theorem applyGatewayResult_fail (now : Nat) (r : SmsResult) (m : Message)
    (h : r.success = false) :
    applyGatewayResult now r m =
      { m with api_response := some r,
               status := MessageStatus.FAILED,
               error_message := some (r.error.getD "Unknown error"),
               failed_at := some now,
               retry_count := m.retry_count + 1 } := by
  unfold applyGatewayResult
  dsimp only
  rw [if_neg (by simp [h])]

/-- `applyGatewayResult` on a gateway-reported success. -/
theorem applyGatewayResult_succ (now : Nat) (r : SmsResult) (m : Message)
    (h : r.success = true) :
    applyGatewayResult now r m =
      { m with api_response := some r,
               status := MessageStatus.SENT,
               sent_at := some now } := by
  unfold applyGatewayResult
  dsimp only
  rw [if_pos h]

theorem markFailedExc_id (now : Nat) (err : String) (m : Message) :
    (markFailedExc now err m).id = m.id ∧
      (markFailedExc now err m).contact_id = m.contact_id := ⟨rfl, rfl⟩

theorem resetForRetry_id (m : Message) :
    (resetForRetry m).id = m.id ∧
      (resetForRetry m).contact_id = m.contact_id := ⟨rfl, rfl⟩

theorem markInProgress_id (now : Nat) (c : Campaign) :
    (markInProgress now c).id = c.id := rfl

theorem markCompleted_id (now : Nat) (c : Campaign) :
    (markCompleted now c).id = c.id := rfl

theorem markCampaignFailed_id (now : Nat) (err : String) (c : Campaign) :
    (markCampaignFailed now err c).id = c.id := rfl

theorem markProcessing_id (c : Campaign) :
    (markProcessing c).id = c.id := rfl

/-- Pointwise lifting of a self-map along `List.map`. -/
theorem forall₂_map_self (R : α → α → Prop) (g : α → α) (h : ∀ a, R a (g a)) :
    ∀ l : List α, List.Forall₂ R l (l.map g)
  | [] => List.Forall₂.nil
  | a :: l => List.Forall₂.cons (h a) (forall₂_map_self R g h l)

/-! ## Claim C1: the stats invariant -/

/-- The three counter buckets of the aggregator cover exactly the statuses
other than `QUEUED` and `SENDING`. -/
theorem countP_buckets (msgs : List Message) :
    countSent msgs + countFailed msgs + countPending msgs =
      msgs.countP (fun m =>
        !(m.status == MessageStatus.QUEUED) && !(m.status == MessageStatus.SENDING)) := by
  unfold countSent countFailed countPending
  induction msgs with
  | nil => rfl
  | cons m l ih =>
      simp only [List.countP_cons]
      cases h : m.status <;> simp [h] <;> omega

theorem statsApply_id (now : Nat) (msgs : List Message) (c : Campaign) :
    (statsApply now msgs c).id = c.id := by
  unfold statsApply
  dsimp only
  split <;> rfl

theorem statsApply_totals (now : Nat) (msgs : List Message) (c : Campaign) :
    (statsApply now msgs c).total_sent = countSent msgs ∧
      (statsApply now msgs c).total_failed = countFailed msgs ∧
      (statsApply now msgs c).total_pending = countPending msgs := by
  unfold statsApply
  dsimp only
  split <;> exact ⟨rfl, rfl, rfl⟩

/-- **Claim C1** (amended).  After every Stats Aggregator recompute pass,
`total_sent + total_failed + total_pending` equals the number of the
campaign's `Message` rows whose status is neither `QUEUED` nor `SENDING`
(the buckets being SENT+DELIVERED, FAILED+INVALID_NUMBER and PENDING, an
in-flight message falls in no bucket, so equality with the full row count
holds only in the absence of in-flight messages). -/
theorem stats_sum_after_recompute (st : St) (now cid : Nat) (camp : Campaign)
    (hc : campaignFind st cid = some camp) :
    ∃ c', campaignFind (update_campaign_stats st now cid).1 cid = some c' ∧
      c'.total_sent + c'.total_failed + c'.total_pending =
        (st.messages.filter (fun m => m.campaign_id == cid &&
          (!(m.status == MessageStatus.QUEUED) &&
           !(m.status == MessageStatus.SENDING)))).length := by
  simp only [update_campaign_stats, hc]
  set msgs := st.messages.filter (fun m => m.campaign_id == cid) with hmsgs
  refine ⟨statsApply now msgs camp, ?_, ?_⟩
  · rw [campaignFind_updateCampaign_self st cid _ (statsApply_id now msgs), hc]
    rfl
  · obtain ⟨h1, h2, h3⟩ := statsApply_totals now msgs camp
    rw [h1, h2, h3, countP_buckets]
    rw [show (st.messages.filter (fun m => m.campaign_id == cid &&
          (!(m.status == MessageStatus.QUEUED) &&
           !(m.status == MessageStatus.SENDING)))).length =
        st.messages.countP (fun m => m.campaign_id == cid &&
          (!(m.status == MessageStatus.QUEUED) &&
           !(m.status == MessageStatus.SENDING)))
      from (List.countP_eq_length_filter _ _).symm]
    rw [hmsgs, List.countP_filter]
    apply List.countP_congr
    intro x _
    constructor <;> intro h <;>
      · simp only [Bool.and_eq_true] at h ⊢
        tauto

/-- **Claim C1** (counterexample).  A campaign with a single `SENDING`
message: after a recompute pass the counter sum is `0` while the campaign
owns `1` message row, so the claimed equality with the row count is
false; the pass even transitions the `IN_PROGRESS` campaign to
`COMPLETED` while the send is in flight. -/
theorem stats_sum_total_counterexample :
    (((update_campaign_stats
        { campaigns := [baseCampaign], contacts := [baseContact],
          messages := [{ baseMessage with status := MessageStatus.SENDING }] }
        9 1).1 |> fun st' =>
          ((campaignFind st' 1).map (fun c =>
            (c.total_sent + c.total_failed + c.total_pending,
             (st'.messages.filter (fun m => m.campaign_id == 1)).length,
             c.status))) ) = some (0, 1, CampaignStatus.COMPLETED)) ∧
      (0 : Nat) ≠ 1 := by
  constructor
  · rfl
  · decide

/-- Witness for `stats_sum_after_recompute` at a concrete one-message
state. -/
theorem stats_sum_after_recompute_witness :
    ∃ c', campaignFind
        (update_campaign_stats
          { campaigns := [baseCampaign], contacts := [baseContact],
            messages := [baseMessage] } 9 1).1 1 = some c' ∧
      c'.total_sent + c'.total_failed + c'.total_pending =
        (({ campaigns := [baseCampaign], contacts := [baseContact],
            messages := [baseMessage] } : St).messages.filter
          (fun m => m.campaign_id == 1 &&
            (!(m.status == MessageStatus.QUEUED) &&
             !(m.status == MessageStatus.SENDING)))).length :=
  stats_sum_after_recompute
    { campaigns := [baseCampaign], contacts := [baseContact],
      messages := [baseMessage] } 9 1 baseCampaign rfl

/-! ## Claim C10: the gateway client is not total -/

/-- **Claim C10** (code bug).  `ArkeselSMSClient.send_sms` is *meant* to
be total — its docstring promises a returned dict and every handler
builds one — and it is total on a 2xx JSON response, a non-2xx response,
a timeout, an undecodable body and any non-httpx exception.  But on an
`httpx.HTTPError` that carries no `response` (a connection error, with
the gateway unreachable a routine case), the handler's
`getattr(e.response, 'status_code', None)` evaluates `e.response` first
and raises `AttributeError`, which propagates to the caller.  Evaluating
the embedding: the failing input yields `Except.error`, while the
neighbouring handler cases return their dicts as documented. -/
theorem gateway_client_raises_on_responseless_http_error :
    send_sms (GetOutcome.httpExc "All connection attempts failed") =
      Except.error attributeErrorText ∧
    send_sms GetOutcome.timeoutExc =
      Except.ok { success := false, error := some "Request timeout",
                  http_status := none, payload := [] } ∧
    send_sms (GetOutcome.otherExc "boom") =
      Except.ok { success := false, error := some "boom",
                  http_status := none, payload := [] } ∧
    send_sms (GetOutcome.ok 404 true []) =
      Except.ok { success := false, error := some (statusErrorText 404),
                  http_status := some 404, payload := [] } ∧
    send_sms (GetOutcome.ok 200 true [("code", "ok")]) =
      Except.ok { success := true, error := none, http_status := some 200,
                  payload := [("code", "ok")] } :=
  ⟨rfl, rfl, rfl, rfl, rfl⟩

/-! ## Claims C3 and C4: retry scheduling and backoff -/

/-- **Claim C3** (counterexample).  A send attempt ending in a
gateway-reported failure (a timeout, returned by the client as a
`success = False` dict) on a fresh message: the message is stored
`FAILED` with `retry_count = 1`, still below `sms_retry_attempts = 3`,
yet the worker schedules no delayed re-enqueue — its only action is the
stats pass.  The claimed conditional re-enqueue does not happen. -/
theorem gateway_failure_retry_counterexample :
    send_sms GetOutcome.timeoutExc =
      Except.ok { success := false, error := some "Request timeout",
                  http_status := none, payload := [] } ∧
    ((msgFind (send_single_sms settings exSt 7 GetOutcome.timeoutExc 1).final
        1).map (fun m => (m.status, m.retry_count)) =
      some (MessageStatus.FAILED, 1)) ∧
    1 < settings.sms_retry_attempts ∧
    (send_single_sms settings exSt 7 GetOutcome.timeoutExc 1).actions =
      [TaskAction.enqueueStats 1] ∧
    ∀ cd, TaskAction.scheduleRetry 1 cd ∉
      (send_single_sms settings exSt 7 GetOutcome.timeoutExc 1).actions := by
  refine ⟨rfl, rfl, by decide, rfl, ?_⟩
  intro cd h
  have heq : (send_single_sms settings exSt 7 GetOutcome.timeoutExc 1).actions
      = [TaskAction.enqueueStats 1] := rfl
  rw [heq] at h
  simp at h

/-- **Claim C3** (amended).  On a gateway-reported failure — the client
*returning* a `success = False` dict — the Send Worker stores the raw
result, sets `FAILED`, records `failed_at` and increments `retry_count`,
but schedules no delayed re-enqueue, whatever the retry count: a returned
failure value never reaches the task's retry branch; a delayed re-enqueue
of the same message id happens only on the exception path (an unexpected
exception inside the task, including the `AttributeError` the client
itself raises on a response-less HTTP error), exactly when the
incremented `retry_count` is still below `sms_retry_attempts`. -/
theorem gateway_failure_no_reenqueue (s : Settings) (st : St) (now mid : Nat)
    (o : GetOutcome) (res : SmsResult) (msg : Message) (contact : Contact)
    (hm : msgFind st mid = some msg)
    (hc : contactFind st msg.contact_id = some contact)
    (hv : contact.is_valid = true)
    (ho : send_sms o = Except.ok res)
    (hfail : res.success = false) :
    (∃ m', msgFind (send_single_sms s st now o mid).final mid = some m' ∧
      m'.status = MessageStatus.FAILED ∧
      m'.retry_count = msg.retry_count + 1 ∧
      m'.api_response = some res ∧
      m'.error_message = some (res.error.getD "Unknown error") ∧
      m'.failed_at = some now) ∧
    (send_single_sms s st now o mid).actions =
      [TaskAction.enqueueStats msg.campaign_id] ∧
    (∀ cd, TaskAction.scheduleRetry mid cd ∉
      (send_single_sms s st now o mid).actions) ∧
    (∀ err aft,
      (msg.retry_count + 1 < s.sms_retry_attempts →
        (send_single_sms_exc s st now err aft mid).actions =
          [TaskAction.scheduleRetry mid
            (s.sms_retry_delay * 2 ^ (msg.retry_count + 1))]) ∧
      (¬ msg.retry_count + 1 < s.sms_retry_attempts →
        (send_single_sms_exc s st now err aft mid).actions = [])) := by
  simp only [send_single_sms, hm, hc, hv, Bool.true_eq_false, if_false, ho]
  refine ⟨?_, ?_, ?_, ?_⟩
  · rw [msgFind_updateMessage_self _ _ _
        (fun m => (applyGatewayResult_id now res m).1),
      msgFind_updateMessage_self _ _ _ (fun m => (markSending_id now m).1),
      hm, Option.map_some', Option.map_some',
      applyGatewayResult_fail now _ _ hfail]
    exact ⟨_, rfl, rfl, rfl, rfl, rfl, rfl⟩
  · trivial
  · intro cd h
    simp at h
  · intro err aft
    simp only [send_single_sms_exc, hm]
    constructor
    · intro hlt
      simp only [if_pos hlt]
    · intro hge
      simp only [if_neg hge]

/-- Witness for `gateway_failure_no_reenqueue` on the one-message state
with a non-2xx response (an `HTTPStatusError`, which the client returns
as a failure dict). -/
theorem gateway_failure_no_reenqueue_witness :
    (∃ m', msgFind (send_single_sms settings exSt 3
        (GetOutcome.ok 503 true []) 1).final 1 = some m' ∧
      m'.status = MessageStatus.FAILED ∧
      m'.retry_count = baseMessage.retry_count + 1 ∧
      m'.api_response = some res503 ∧
      m'.error_message = some (res503.error.getD "Unknown error") ∧
      m'.failed_at = some 3) ∧
    (send_single_sms settings exSt 3 (GetOutcome.ok 503 true []) 1).actions =
      [TaskAction.enqueueStats baseMessage.campaign_id] ∧
    (∀ cd, TaskAction.scheduleRetry 1 cd ∉
      (send_single_sms settings exSt 3 (GetOutcome.ok 503 true []) 1).actions) ∧
    (∀ err aft,
      (baseMessage.retry_count + 1 < settings.sms_retry_attempts →
        (send_single_sms_exc settings exSt 3 err aft 1).actions =
          [TaskAction.scheduleRetry 1
            (settings.sms_retry_delay * 2 ^ (baseMessage.retry_count + 1))]) ∧
      (¬ baseMessage.retry_count + 1 < settings.sms_retry_attempts →
        (send_single_sms_exc settings exSt 3 err aft 1).actions = [])) :=
  gateway_failure_no_reenqueue settings exSt 3 1
    (GetOutcome.ok 503 true []) res503
    baseMessage baseContact rfl rfl rfl rfl rfl

/-- **Claim C4** (counterexample).  With the default
`sms_retry_delay = 5`, the first automatic re-enqueue of a fresh message
(`retry_count = 0` at failure time) is scheduled with a countdown of
`10` seconds, not the claimed `5 = baseDelay * 2^0`: `retry_count` is
incremented before the countdown is computed. -/
theorem backoff_delay_counterexample :
    settings.sms_retry_delay = 5 ∧
    (send_single_sms_exc settings exSt 7 "boom" false 1).actions =
      [TaskAction.scheduleRetry 1 10] ∧
    TaskAction.scheduleRetry 1 (settings.sms_retry_delay * 2 ^ 0) ∉
      (send_single_sms_exc settings exSt 7 "boom" false 1).actions ∧
    (10 : Nat) ≠ 5 := by
  decide

/-- **Claim C4** (amended).  The countdown of an automatic re-enqueue is
`sms_retry_delay * 2 ^ (retry_count + 1)` where `retry_count` is the
count *before* the failing attempt: the code increments first and then
computes `baseDelay * 2 ** retry_count`.  With baseDelay = 5 and
maxAttempts = 3 a message failing repeatedly from `retry_count = 0` is
re-enqueued exactly twice, with delays 10s then 20s, and ends `FAILED`
with `retry_count = 3`; re-enqueues also arise only from the
unexpected-exception path. -/
theorem backoff_delay_doubling (s : Settings) (st : St) (now mid : Nat)
    (err : String) (aft : Bool) (msg : Message)
    (hm : msgFind st mid = some msg)
    (hlt : msg.retry_count + 1 < s.sms_retry_attempts) :
    ((send_single_sms_exc s st now err aft mid).actions =
      [TaskAction.scheduleRetry mid
        (s.sms_retry_delay * 2 ^ (msg.retry_count + 1))]) ∧
    ((send_single_sms_exc settings exSt 7 "e" false 1).actions =
      [TaskAction.scheduleRetry 1 10]) ∧
    ((send_single_sms_exc settings exStExc1 8 "e" false 1).actions =
      [TaskAction.scheduleRetry 1 20]) ∧
    ((send_single_sms_exc settings exStExc2 9 "e" false 1).actions = []) ∧
    ((msgFind exStExc3 1).map (fun m => (m.status, m.retry_count)) =
      some (MessageStatus.FAILED, 3)) := by
  refine ⟨?_, rfl, rfl, rfl, rfl⟩
  simp only [send_single_sms_exc, hm, if_pos hlt]

/-- Witness for `backoff_delay_doubling` on the one-message state. -/
theorem backoff_delay_doubling_witness :
    ((send_single_sms_exc settings exSt 11 "w" true 1).actions =
      [TaskAction.scheduleRetry 1
        (settings.sms_retry_delay * 2 ^ (baseMessage.retry_count + 1))]) ∧
    ((send_single_sms_exc settings exSt 7 "e" false 1).actions =
      [TaskAction.scheduleRetry 1 10]) ∧
    ((send_single_sms_exc settings exStExc1 8 "e" false 1).actions =
      [TaskAction.scheduleRetry 1 20]) ∧
    ((send_single_sms_exc settings exStExc2 9 "e" false 1).actions = []) ∧
    ((msgFind exStExc3 1).map (fun m => (m.status, m.retry_count)) =
      some (MessageStatus.FAILED, 3)) :=
  backoff_delay_doubling settings exSt 11 1 "w" true baseMessage rfl (by decide)

/-! ## Claim C8: RetryFailed -/

/-- **Claim C8** (confirmed).  `retry_failed_messages` touches exactly the
`FAILED` messages of the campaign with `retry_count` below
`sms_retry_attempts`: each selected row is reset to `PENDING` with its
error text cleared and its `retry_count` and identity preserved, every
other row is returned unchanged, one send job is enqueued per selected
row (in table order), the reported count is the number of selected rows,
and with no qualifying row the task succeeds leaving the state
untouched. -/
theorem retry_failed_selects_and_resets (s : Settings) (st : St) (cid : Nat) :
    List.Forall₂ (fun m m' : Message =>
        (retryPred s cid m = true →
          m' = resetForRetry m ∧ m'.status = MessageStatus.PENDING ∧
            m'.error_message = none) ∧
        (retryPred s cid m = false → m' = m) ∧
        m'.retry_count = m.retry_count ∧ m'.id = m.id)
      st.messages (retry_failed_messages s st cid).final.messages ∧
    (retry_failed_messages s st cid).actions =
      (st.messages.filter (retryPred s cid)).map
        (fun m => TaskAction.enqueueSend m.id) ∧
    (retry_failed_messages s st cid).success = true ∧
    (retry_failed_messages s st cid).total_retried =
      (st.messages.filter (retryPred s cid)).length ∧
    (st.messages.filter (retryPred s cid) = [] →
      (retry_failed_messages s st cid).final = st) := by
  refine ⟨?_, rfl, rfl, rfl, ?_⟩
  · apply forall₂_map_self
    intro m
    by_cases hp : retryPred s cid m
    · rw [if_pos hp]
      refine ⟨fun _ => ⟨rfl, rfl, rfl⟩, fun habs => ?_, rfl, rfl⟩
      rw [hp] at habs
      exact absurd habs (by simp)
    · rw [if_neg hp]
      refine ⟨fun habs => ?_, fun _ => rfl, rfl, rfl⟩
      exact absurd habs hp
  · intro hnil
    have hall : ∀ m ∈ st.messages, retryPred s cid m = false := by
      intro m hm
      by_contra hfx
      have : m ∈ st.messages.filter (retryPred s cid) :=
        List.mem_filter.2 ⟨hm, by simpa using hfx⟩
      rw [hnil] at this
      exact absurd this (List.not_mem_nil m)
    have hmap : st.messages.map
        (fun m => if retryPred s cid m then resetForRetry m else m) =
        st.messages := by
      calc st.messages.map (fun m => if retryPred s cid m then resetForRetry m else m)
          = st.messages.map id := by
            apply List.map_congr_left
            intro a ha
            rw [if_neg (by rw [hall a ha]; simp), id]
        _ = st.messages := List.map_id _
    show { st with messages := _ } = st
    rw [hmap]

/-- Witness for `retry_failed_selects_and_resets`: on `exStRetry` only
message 1 is re-enqueued. -/
theorem retry_failed_selects_and_resets_witness :
    (retry_failed_messages settings exStRetry 1).actions =
        [TaskAction.enqueueSend 1] ∧
      (retry_failed_messages settings exStRetry 1).total_retried = 1 := by
  have h := retry_failed_selects_and_resets settings exStRetry 1
  exact ⟨h.2.1.trans (by decide), h.2.2.2.1.trans (by decide)⟩

/-! ## Claim C9: dispatch with zero pending messages -/

/-- **Claim C9** (confirmed).  `send_bulk_sms` on an existing campaign
with no `PENDING` message is a success, not an error: it first commits
the campaign `IN_PROGRESS` with `started_at`, then immediately commits it
`COMPLETED` with `completed_at`, performs no enqueue and no sleep, and
returns the success dict reporting zero messages. -/
theorem bulk_dispatch_zero_pending_completes (s : Settings) (st : St)
    (now cid : Nat) (bs : Option Nat) (camp : Campaign)
    (hc : campaignFind st cid = some camp)
    (hp : pendingIds st cid = []) :
    (∃ st1 c1, (send_bulk_sms s st now cid bs).commits = [st1] ∧
      campaignFind st1 cid = some c1 ∧
      c1.status = CampaignStatus.IN_PROGRESS ∧ c1.started_at = some now) ∧
    (∃ c2, campaignFind (send_bulk_sms s st now cid bs).final cid = some c2 ∧
      c2.status = CampaignStatus.COMPLETED ∧ c2.completed_at = some now ∧
      c2.started_at = some now) ∧
    (send_bulk_sms s st now cid bs).result = BulkResult.noPendingMessages ∧
    (send_bulk_sms s st now cid bs).result.successFlag = true ∧
    (send_bulk_sms s st now cid bs).result.totalSent = some 0 ∧
    (send_bulk_sms s st now cid bs).actions = [] := by
  have hp1 : pendingIds (updateCampaign st cid (markInProgress now)) cid = [] := by
    unfold pendingIds
    rw [updateCampaign_messages]
    exact hp
  simp only [send_bulk_sms, hc, hp1, List.length_nil, if_true]
  refine ⟨⟨updateCampaign st cid (markInProgress now), markInProgress now camp,
      by trivial, ?_, by trivial, by trivial⟩,
    ⟨markCompleted now (markInProgress now camp), ?_, by trivial, by trivial, by trivial⟩,
    by trivial, by trivial, by trivial, by trivial⟩
  · rw [campaignFind_updateCampaign_self st cid _ (markInProgress_id now), hc]
    rfl
  · rw [campaignFind_updateCampaign_self _ cid _ (markCompleted_id now),
      campaignFind_updateCampaign_self st cid _ (markInProgress_id now), hc]
    rfl

/-- Witness for `bulk_dispatch_zero_pending_completes` on `exStZero`. -/
theorem bulk_dispatch_zero_pending_completes_witness :
    (send_bulk_sms settings exStZero 4 1 none).result =
        BulkResult.noPendingMessages ∧
      ((campaignFind (send_bulk_sms settings exStZero 4 1 none).final 1).map
        (fun c => (c.status, c.started_at, c.completed_at))) =
        some (CampaignStatus.COMPLETED, some 4, some 4) := by
  have h := bulk_dispatch_zero_pending_completes settings exStZero 4 1 none
    baseCampaign rfl rfl
  exact ⟨h.2.2.1, by decide⟩

/-! ## Claim C5: batch pacing -/

theorem specPaced_cons (pause : TaskAction) (B : List Nat)
    (rest : List (List Nat)) (h : rest ≠ []) :
    specPacedActions pause (B :: rest) =
      B.map TaskAction.enqueueSend ++ pause :: specPacedActions pause rest := by
  cases rest with
  | nil => exact absurd rfl h
  | cons C r => rfl

theorem chunksGo_ne_nil (b fuel : Nat) (x : Nat) (xs : List Nat)
    (hf : 0 < fuel) : chunksGo b fuel (x :: xs) ≠ [] := by
  cases fuel with
  | zero => exact absurd hf (by omega)
  | succ f => simp [chunksGo]

/-- The batching loop of `send_bulk_sms` produces exactly the paced
stream: batches in order, one sleep of `(b / rate) * 60` seconds after
every batch except the last. -/
theorem loopActions_eq_paced (b rate : Nat) (hb : 0 < b) :
    ∀ fuel l, l.length ≤ fuel →
      loopActions b rate fuel l =
        specPacedActions (TaskAction.sleepFor (((b : ℚ) / (rate : ℚ)) * 60))
          (chunksGo b fuel l) := by
  intro fuel
  induction fuel with
  | zero =>
      intro l hl
      cases l with
      | nil => rfl
      | cons x xs => simp at hl
  | succ f ih =>
      intro l hl
      cases l with
      | nil => rfl
      | cons x xs =>
          by_cases hlt : b < (x :: xs).length
          · have hne : (x :: xs).drop b ≠ [] := by
              intro h0
              have h1 : ((x :: xs).drop b).length = 0 := by rw [h0]; rfl
              rw [List.length_drop] at h1
              omega
            obtain ⟨y, ys, hdrop⟩ : ∃ y ys, (x :: xs).drop b = y :: ys := by
              cases hd : (x :: xs).drop b with
              | nil => exact absurd hd hne
              | cons y ys => exact ⟨y, ys, rfl⟩
            have hflen : ((x :: xs).drop b).length ≤ f := by
              rw [List.length_drop]
              simp only [List.length_cons] at hl hlt ⊢
              omega
            have hf0 : 0 < f := by
              rw [hdrop] at hflen
              simp only [List.length_cons] at hflen
              omega
            simp only [loopActions, chunksGo, if_pos hlt, ih _ hflen]
            rw [specPaced_cons _ _ _
              (by rw [hdrop]; exact chunksGo_ne_nil b f y ys hf0),
              List.append_assoc]
            rfl
          · have hdrop : (x :: xs).drop b = [] :=
              List.drop_eq_nil_of_le (by omega)
            simp only [loopActions, chunksGo, if_neg hlt, hdrop]
            simp [specPacedActions]

/-- The batches concatenate back to the original id list. -/
theorem chunksGo_flatten (b : Nat) (hb : 0 < b) :
    ∀ fuel l, l.length ≤ fuel → (chunksGo b fuel l).flatten = l := by
  intro fuel
  induction fuel with
  | zero =>
      intro l hl
      cases l with
      | nil => rfl
      | cons x xs => simp at hl
  | succ f ih =>
      intro l hl
      cases l with
      | nil => rfl
      | cons x xs =>
          have hflen : ((x :: xs).drop b).length ≤ f := by
            rw [List.length_drop]
            simp only [List.length_cons] at hl ⊢
            omega
          simp only [chunksGo, List.flatten_cons, ih _ hflen]
          exact List.take_append_drop b (x :: xs)

/-- Every batch is nonempty and no longer than `b`. -/
theorem chunksGo_sizes (b : Nat) (hb : 0 < b) :
    ∀ fuel l, ∀ B ∈ chunksGo b fuel l, B.length ≤ b ∧ B ≠ [] := by
  intro fuel
  induction fuel with
  | zero =>
      intro l B hB
      cases l <;> simp [chunksGo] at hB
  | succ f ih =>
      intro l B hB
      cases l with
      | nil => simp [chunksGo] at hB
      | cons x xs =>
          simp only [chunksGo, List.mem_cons] at hB
          rcases hB with h | h
          · subst h
            refine ⟨List.length_take_le b (x :: xs), ?_⟩
            cases b with
            | zero => omega
            | succ b' => simp [List.take_succ_cons]
          · exact ih _ B h

/-- Every batch but the last has length exactly `b`. -/
theorem chunksGo_dropLast (b : Nat) (hb : 0 < b) :
    ∀ fuel l, l.length ≤ fuel →
      ∀ B ∈ (chunksGo b fuel l).dropLast, B.length = b := by
  intro fuel
  induction fuel with
  | zero =>
      intro l hl B hB
      cases l with
      | nil => simp [chunksGo] at hB
      | cons x xs => simp at hl
  | succ f ih =>
      intro l hl B hB
      cases l with
      | nil => simp [chunksGo] at hB
      | cons x xs =>
          by_cases hlt : b < (x :: xs).length
          · have hflen : ((x :: xs).drop b).length ≤ f := by
              rw [List.length_drop]
              simp only [List.length_cons] at hl ⊢
              omega
            have hne : (x :: xs).drop b ≠ [] := by
              intro h0
              have h1 : ((x :: xs).drop b).length = 0 := by rw [h0]; rfl
              rw [List.length_drop] at h1
              omega
            obtain ⟨y, ys, hdrop⟩ : ∃ y ys, (x :: xs).drop b = y :: ys := by
              cases hd : (x :: xs).drop b with
              | nil => exact absurd hd hne
              | cons y ys => exact ⟨y, ys, rfl⟩
            have hf0 : 0 < f := by
              rw [hdrop] at hflen
              simp only [List.length_cons] at hflen
              omega
            have hrest : chunksGo b f ((x :: xs).drop b) ≠ [] := by
              rw [hdrop]
              exact chunksGo_ne_nil b f y ys hf0
            simp only [chunksGo] at hB
            rw [List.dropLast_cons_of_ne_nil hrest, List.mem_cons] at hB
            rcases hB with h | h
            · subst h
              rw [List.length_take]
              simp only [List.length_cons] at hlt
              simp only [List.length_cons]
              omega
            · exact ih _ hflen B h
          · have hdrop : (x :: xs).drop b = [] :=
              List.drop_eq_nil_of_le (by omega)
            simp only [chunksGo, hdrop] at hB
            simp [chunksGo] at hB

theorem pendingIds_updateCampaign (st : St) (cid cid' : Nat)
    (f : Campaign → Campaign) :
    pendingIds (updateCampaign st cid' f) cid = pendingIds st cid := rfl

/-- The enqueue/sleep stream of `send_bulk_sms` is the paced stream over
the chunks of the pending ids. -/
theorem send_bulk_actions_paced (s : Settings) (st : St) (now cid b : Nat)
    (camp : Campaign) (hb : 0 < b) (hc : campaignFind st cid = some camp) :
    (send_bulk_sms s st now cid (some b)).actions =
      specPacedActions
        (TaskAction.sleepFor (((b : ℚ) / (s.sms_rate_limit : ℚ)) * 60))
        (chunks b (pendingIds st cid)) := by
  simp only [send_bulk_sms, hc, if_neg (Nat.pos_iff_ne_zero.1 hb),
    pendingIds_updateCampaign]
  by_cases hz : (pendingIds st cid).length = 0
  · have hnil : pendingIds st cid = [] := List.length_eq_zero.1 hz
    simp only [hz, if_true, hnil]
    rfl
  · simp only [hz, if_false]
    exact loopActions_eq_paced b s.sms_rate_limit hb _ _ le_rfl

/-- **Claim C5** (confirmed).  Dispatching a campaign with batch size
`b > 0` partitions the pending message ids into consecutive batches of
size `b` (the last possibly smaller, none empty), enqueues them in order
and pauses `(b / rateLimitPerMinute) * 60` seconds after every batch
except the last; for `batchSize = 2`, `rateLimitPerMinute = 60` and `5`
pending messages the batches have sizes `[2, 2, 1]` with a 2-second pause
after the first and second batches only. -/
theorem dispatch_batch_pacing (s : Settings) (st : St) (now cid b : Nat)
    (camp : Campaign) (hb : 0 < b) (hc : campaignFind st cid = some camp) :
    ((send_bulk_sms s st now cid (some b)).actions =
      specPacedActions
        (TaskAction.sleepFor (((b : ℚ) / (s.sms_rate_limit : ℚ)) * 60))
        (chunks b (pendingIds st cid))) ∧
    (chunks b (pendingIds st cid)).flatten = pendingIds st cid ∧
    (∀ B ∈ chunks b (pendingIds st cid), B.length ≤ b ∧ B ≠ []) ∧
    (∀ B ∈ (chunks b (pendingIds st cid)).dropLast, B.length = b) ∧
    ((send_bulk_sms settings exStFive 3 1 (some 2)).actions =
      [TaskAction.enqueueSend 1, TaskAction.enqueueSend 2,
       TaskAction.sleepFor 2, TaskAction.enqueueSend 3,
       TaskAction.enqueueSend 4, TaskAction.sleepFor 2,
       TaskAction.enqueueSend 5]) ∧
    ((chunks 2 (pendingIds exStFive 1)).map List.length = [2, 2, 1]) := by
  refine ⟨send_bulk_actions_paced s st now cid b camp hb hc,
    chunksGo_flatten b hb _ _ le_rfl, fun B hB => chunksGo_sizes b hb _ _ B hB,
    chunksGo_dropLast b hb _ _ le_rfl, ?_, by decide⟩
  rw [send_bulk_actions_paced settings exStFive 3 1 2 baseCampaign
    (by decide) rfl]
  have hq : (((2 : Nat) : ℚ) / ((settings.sms_rate_limit : Nat) : ℚ)) * 60
      = (2 : ℚ) := by
    norm_num [settings]
  rw [hq]
  have hch : chunks 2 (pendingIds exStFive 1) = [[1, 2], [3, 4], [5]] := by
    decide
  rw [hch]
  rfl

/-- Witness for `dispatch_batch_pacing` on the five-message state. -/
theorem dispatch_batch_pacing_witness :
    (send_bulk_sms settings exStFive 3 1 (some 2)).actions =
      specPacedActions
        (TaskAction.sleepFor
          (((2 : ℚ) / (settings.sms_rate_limit : ℚ)) * 60))
        (chunks 2 (pendingIds exStFive 1)) :=
  (dispatch_batch_pacing settings exStFive 3 1 2 baseCampaign
    (by decide) rfl).1

/-! ## Claim C6: failure during materialization -/

/-- **Claim C6** (counterexample).  A store failure while materializing a
draft campaign's messages: `execute_campaign` propagates an HTTP 500
error, but the campaign's status stays `DRAFT` — it is *not* set to
`FAILED` and no error record is written.  The claimed transition to
`FAILED` does not happen on this path. -/
theorem materialization_failure_counterexample :
    ((execute_campaign settings exStDraft 1 10 (some "db down")).2.1 =
      ExecResult.http500 "db down") ∧
    ((campaignFind (execute_campaign settings exStDraft 1 10
        (some "db down")).1 1).map (fun c => (c.status, c.error_log)) =
      some (CampaignStatus.DRAFT, none)) ∧
    CampaignStatus.DRAFT ≠ CampaignStatus.FAILED := by
  decide

/-- **Claim C6** (amended).  A failure during materialization makes
`execute_campaign` roll the transaction back and propagate the failure as
an HTTP 500 error: the state is unchanged, so the campaign keeps the
status it had — which, by the already-running guard, is not `PROCESSING`
— and is in particular not set to `FAILED` (the `FAILED`-with-error-record
transition belongs to the background bulk task's own failure handler, not
to materialization). -/
theorem materialization_failure_rolls_back (s : Settings) (st : St)
    (cid nextId : Nat) (err : String) (camp : Campaign)
    (hc : campaignFind st cid = some camp)
    (hrun : ¬(camp.status = CampaignStatus.PROCESSING ∨
              camp.status = CampaignStatus.IN_PROGRESS)) :
    (execute_campaign s st cid nextId (some err)).1 = st ∧
    (execute_campaign s st cid nextId (some err)).2.1 =
      ExecResult.http500 err ∧
    (execute_campaign s st cid nextId (some err)).2.2 = [] ∧
    campaignFind (execute_campaign s st cid nextId (some err)).1 cid =
      some camp ∧
    camp.status ≠ CampaignStatus.PROCESSING := by
  have hres : execute_campaign s st cid nextId (some err) =
      (st, ExecResult.http500 err, []) := by
    simp only [execute_campaign, hc, if_neg hrun]
  rw [hres]
  exact ⟨rfl, rfl, rfl, hc, fun h => hrun (Or.inl h)⟩

/-- Witness for `materialization_failure_rolls_back` on the draft
campaign. -/
theorem materialization_failure_rolls_back_witness :
    (execute_campaign settings exStDraft 1 10 (some "db down")).1 =
        exStDraft ∧
      (execute_campaign settings exStDraft 1 10 (some "db down")).2.1 =
        ExecResult.http500 "db down" :=
  ⟨(materialization_failure_rolls_back settings exStDraft 1 10 "db down"
      { baseCampaign with status := CampaignStatus.DRAFT } rfl (by decide)).1,
   (materialization_failure_rolls_back settings exStDraft 1 10 "db down"
      { baseCampaign with status := CampaignStatus.DRAFT } rfl (by decide)).2.1⟩

/-! ## Claim C2: message materialization -/

theorem newMessages_map_contact_id (camp : Campaign) (cid nextId : Nat)
    (eligible : List Contact) :
    (newMessages camp cid nextId eligible).map (fun m => m.contact_id) =
      eligible.map Contact.id := by
  unfold newMessages
  rw [List.map_map,
    show ((fun m : Message => m.contact_id) ∘ fun ic : Nat × Contact =>
      ({ id := nextId + ic.1, campaign_id := cid, contact_id := ic.2.id,
         message_text := renderTemplate camp.message_template ic.2,
         sender_id := camp.sender_id, status := MessageStatus.PENDING,
         api_response := none, error_message := none, retry_count := 0,
         queued_at := none, sent_at := none, failed_at := none } : Message))
      = (Contact.id ∘ Prod.snd) from rfl,
    ← List.map_map, List.enum_map_snd]

theorem newMessages_length (camp : Campaign) (cid nextId : Nat)
    (eligible : List Contact) :
    (newMessages camp cid nextId eligible).length = eligible.length := by
  unfold newMessages
  rw [List.length_map, List.enum_length]

/-- **Claim C2** (confirmed).  Materialization creates exactly one
`Message` row per contact of the campaign that is valid and does not
already own a message: for every contact the owned-message count grows by
one exactly when it is eligible (so re-invocation only covers the
remaining eligible contacts and an eligible contact ends up with exactly
one message), and the at-most-one-message-per-contact invariant is
preserved.  Hypotheses: the contact table has no duplicate primary key,
and the invariant held before. -/
theorem materialization_one_message_per_eligible_contact
    (st : St) (cid nextId : Nat) (camp : Campaign)
    (hc : campaignFind st cid = some camp)
    (hn : (st.contacts.map Contact.id).Nodup)
    (hu : st.messages.Pairwise (fun a b => a.contact_id ≠ b.contact_id)) :
    ∃ st' k, create_messages_for_campaign st cid nextId = some (st', k) ∧
      k = (st.contacts.filter (eligPred st cid)).length ∧
      (∀ c ∈ st.contacts,
        msgsForContact st'.messages c.id =
          msgsForContact st.messages c.id +
            (if eligPred st cid c then 1 else 0)) ∧
      (∀ c ∈ st.contacts, eligPred st cid c = true →
        msgsForContact st.messages c.id = 0 ∧
          msgsForContact st'.messages c.id = 1) ∧
      st'.messages.Pairwise (fun a b => a.contact_id ≠ b.contact_id) := by
  have hsub : (List.map Contact.id
      (st.contacts.filter (eligPred st cid))).Sublist
        (st.contacts.map Contact.id) :=
    List.Sublist.map Contact.id (List.filter_sublist st.contacts)
  have hnodup : (List.map Contact.id
      (st.contacts.filter (eligPred st cid))).Nodup :=
    List.Nodup.sublist hsub hn
  have hcnt : ∀ ctid : Nat,
      msgsForContact
        (newMessages camp cid nextId (st.contacts.filter (eligPred st cid)))
        ctid =
      (List.map Contact.id (st.contacts.filter (eligPred st cid))).count
        ctid := by
    intro ctid
    show List.countP ((fun x => x == ctid) ∘ fun m : Message => m.contact_id)
      (newMessages camp cid nextId (st.contacts.filter (eligPred st cid))) = _
    rw [← List.countP_map, newMessages_map_contact_id, ← List.count_eq_countP]
  have hcount_elig : ∀ c ∈ st.contacts,
      (List.map Contact.id (st.contacts.filter (eligPred st cid))).count c.id
        = (if eligPred st cid c then 1 else 0) := by
    intro c hcmem
    by_cases he : eligPred st cid c
    · rw [if_pos he]
      have hmem : c.id ∈ List.map Contact.id
          (st.contacts.filter (eligPred st cid)) :=
        List.mem_map.2 ⟨c, List.mem_filter.2 ⟨hcmem, he⟩, rfl⟩
      have h1 := (List.nodup_iff_count_le_one.1 hnodup) c.id
      have h2 : 0 < (List.map Contact.id
          (st.contacts.filter (eligPred st cid))).count c.id :=
        List.count_pos_iff.2 hmem
      omega
    · rw [if_neg he, List.count_eq_zero]
      intro hmem
      obtain ⟨c', hc'mem, hc'id⟩ := List.mem_map.1 hmem
      have hc'c : c' ∈ st.contacts := (List.mem_filter.1 hc'mem).1
      have he' : eligPred st cid c' = true := (List.mem_filter.1 hc'mem).2
      have hcc : c' = c := List.inj_on_of_nodup_map hn hc'c hcmem hc'id
      rw [hcc] at he'
      exact he he'
  have happ : ∀ (l₁ l₂ : List Message) (ctid : Nat),
      msgsForContact (l₁ ++ l₂) ctid =
        msgsForContact l₁ ctid + msgsForContact l₂ ctid := by
    intro l₁ l₂ ctid
    unfold msgsForContact
    exact List.countP_append _ _ _
  simp only [create_messages_for_campaign, hc]
  refine ⟨_, _, rfl,
    newMessages_length camp cid nextId _, ?_, ?_, ?_⟩
  · intro c hcm
    rw [happ, hcnt, hcount_elig c hcm]
  · intro c hcm he
    have hz : msgsForContact st.messages c.id = 0 := by
      unfold msgsForContact
      rw [List.countP_eq_zero]
      have he2 := he
      simp only [eligPred, Bool.and_eq_true, Bool.not_eq_true'] at he2
      exact List.any_eq_false.1 he2.2
    refine ⟨hz, ?_⟩
    rw [happ, hz, hcnt, hcount_elig c hcm, if_pos he]
  · rw [List.pairwise_append]
    have hnm_nodup : ((newMessages camp cid nextId
        (st.contacts.filter (eligPred st cid))).map
          (fun m => m.contact_id)).Nodup := by
      rw [newMessages_map_contact_id]
      exact hnodup
    refine ⟨hu, List.pairwise_map.1 hnm_nodup, ?_⟩
    intro a ha b hb
    have hbmem : b.contact_id ∈ (newMessages camp cid nextId
        (st.contacts.filter (eligPred st cid))).map
          (fun m => m.contact_id) :=
      List.mem_map_of_mem _ hb
    rw [newMessages_map_contact_id] at hbmem
    obtain ⟨c', hc'mem, hc'eq⟩ := List.mem_map.1 hbmem
    have he' : eligPred st cid c' = true := (List.mem_filter.1 hc'mem).2
    simp only [eligPred, Bool.and_eq_true, Bool.not_eq_true'] at he'
    have hany := List.any_eq_false.1 he'.2 a ha
    intro heq
    apply hany
    rw [heq, ← hc'eq]
    exact beq_self_eq_true _

/-- Witness for `materialization_one_message_per_eligible_contact` on
`exStMat` (two valid contacts, one invalid, no prior messages). -/
theorem materialization_one_message_per_eligible_contact_witness :
    ∃ st' k, create_messages_for_campaign exStMat 1 10 = some (st', k) ∧
      k = (exStMat.contacts.filter (eligPred exStMat 1)).length ∧
      (∀ c ∈ exStMat.contacts,
        msgsForContact st'.messages c.id =
          msgsForContact exStMat.messages c.id +
            (if eligPred exStMat 1 c then 1 else 0)) ∧
      (∀ c ∈ exStMat.contacts, eligPred exStMat 1 c = true →
        msgsForContact exStMat.messages c.id = 0 ∧
          msgsForContact st'.messages c.id = 1) ∧
      st'.messages.Pairwise (fun a b => a.contact_id ≠ b.contact_id) :=
  materialization_one_message_per_eligible_contact exStMat 1 10
    { baseCampaign with status := CampaignStatus.DRAFT }
    rfl (by decide) (by decide)

/-! ## Claim C7: no revisit of SENDING -/

theorem NoSendState_of_same (st st' : St) (mid ctid : Nat)
    (hmsg : st'.messages = st.messages) (hcont : st'.contacts = st.contacts)
    (h : NoSendState mid ctid st) : NoSendState mid ctid st' := by
  obtain ⟨⟨m', hm', hcid, hstat⟩, hc⟩ := h
  refine ⟨⟨m', ?_, hcid, hstat⟩, ?_⟩
  · unfold msgFind
    rw [hmsg]
    exact hm'
  · intro c hcf
    apply hc
    unfold contactFind at hcf ⊢
    rw [hcont] at hcf
    exact hcf

theorem NoSendState_updateMessage_other (st : St) (mid ctid mid' : Nat)
    (f : Message → Message) (hf : ∀ m, (f m).id = m.id)
    (hne : mid' ≠ mid) (h : NoSendState mid ctid st) :
    NoSendState mid ctid (updateMessage st mid' f) := by
  obtain ⟨⟨m', hm', hcid, hstat⟩, hc⟩ := h
  refine ⟨⟨m', ?_, hcid, hstat⟩, hc⟩
  rw [msgFind_updateMessage_other st mid mid' f hf hne]
  exact hm'

theorem NoSendState_updateMessage_self (st : St) (mid ctid : Nat)
    (f : Message → Message)
    (hf : ∀ m, (f m).id = m.id ∧ (f m).contact_id = m.contact_id)
    (hs : ∀ m, (f m).status ≠ MessageStatus.SENDING)
    (h : NoSendState mid ctid st) :
    NoSendState mid ctid (updateMessage st mid f) := by
  obtain ⟨⟨m', hm', hcid, hstat⟩, hc⟩ := h
  refine ⟨⟨f m', ?_, ?_, hs m'⟩, hc⟩
  · rw [msgFind_updateMessage_self st mid f (fun m => (hf m).1), hm']
    rfl
  · rw [(hf m').2]
    exact hcid

/-- The send worker preserves the invariant: on the tracked message it can
only take the invalid-contact branch (the contact is invalid or missing),
and on other ids its updates — including the exception-handler write when
the gateway client raises — do not touch the tracked row. -/
theorem send_single_preserves (s : Settings) (st : St) (now : Nat)
    (o : GetOutcome) (mid' mid ctid : Nat) (h : NoSendState mid ctid st) :
    NoSendState mid ctid (send_single_sms s st now o mid').final ∧
      ∀ st' ∈ (send_single_sms s st now o mid').commits,
        NoSendState mid ctid st' := by
  by_cases hmm : mid' = mid
  · subst hmm
    obtain ⟨⟨m', hm', hcid, hstat⟩, hc⟩ := h
    have h' : NoSendState mid' ctid st := ⟨⟨m', hm', hcid, hstat⟩, hc⟩
    cases hcf : contactFind st m'.contact_id with
    | none =>
        simp only [send_single_sms, hm', hcf]
        exact ⟨h', by intro st' hst'; simp at hst'⟩
    | some c =>
        have hcv : c.is_valid = false := hc c (by rw [← hcid]; exact hcf)
        simp only [send_single_sms, hm', hcf]
        split
        · refine ⟨?_, by intro st' hst'; simp at hst'⟩
          exact NoSendState_updateMessage_self st mid' ctid _
            (markInvalid_id now c) (fun m => by simp [markInvalid]) h'
        · rename_i hvalid
          exact absurd hcv hvalid
  · rcases hsf : msgFind st mid' with _ | msg
    · simp only [send_single_sms, hsf]
      exact ⟨h, by intro st' hst'; simp at hst'⟩
    · rcases hcf : contactFind st msg.contact_id with _ | c
      · simp only [send_single_sms, hsf, hcf]
        exact ⟨h, by intro st' hst'; simp at hst'⟩
      · simp only [send_single_sms, hsf, hcf]
        split
        · refine ⟨?_, by intro st' hst'; simp at hst'⟩
          exact NoSendState_updateMessage_other st mid ctid mid' _
            (fun m => (markInvalid_id now c m).1) hmm h
        · have hpre : NoSendState mid ctid
              (updateMessage st mid' (markSending now)) :=
            NoSendState_updateMessage_other st mid ctid mid' _
              (fun m => (markSending_id now m).1) hmm h
          cases hso : send_sms o with
          | ok result =>
              simp only [hso]
              refine ⟨?_, ?_⟩
              · exact NoSendState_updateMessage_other _ mid ctid mid' _
                  (fun m => (applyGatewayResult_id now result m).1) hmm hpre
              · intro st' hst'
                simp only [List.mem_singleton] at hst'
                subst hst'
                exact hpre
          | error e =>
              simp only [hso]
              have hfin : NoSendState mid ctid
                  (updateMessage (updateMessage st mid' (markSending now))
                    mid' (markFailedExc now e)) :=
                NoSendState_updateMessage_other _ mid ctid mid' _
                  (fun m => (markFailedExc_id now e m).1) hmm hpre
              split
              · refine ⟨hfin, ?_⟩
                intro st' hst'
                simp only [List.mem_singleton] at hst'
                subst hst'
                exact hpre
              · refine ⟨hfin, ?_⟩
                intro st' hst'
                simp only [List.mem_singleton] at hst'
                subst hst'
                exact hpre

/-- The exception path preserves the invariant: on the tracked message the
`SENDING` pre-commit is unreachable (it requires a valid contact) and the
handler writes `FAILED`; on other ids the tracked row is untouched. -/
theorem send_exc_preserves (s : Settings) (st : St) (now : Nat)
    (err : String) (aft : Bool) (mid' mid ctid : Nat)
    (h : NoSendState mid ctid st) :
    NoSendState mid ctid (send_single_sms_exc s st now err aft mid').final ∧
      ∀ st' ∈ (send_single_sms_exc s st now err aft mid').commits,
        NoSendState mid ctid st' := by
  by_cases hmm : mid' = mid
  · subst hmm
    obtain ⟨⟨m', hm', hcid, hstat⟩, hc⟩ := h
    have h' : NoSendState mid' ctid st := ⟨⟨m', hm', hcid, hstat⟩, hc⟩
    have hproceed : (aft &&
        (match contactFind st m'.contact_id with
         | some c => c.is_valid
         | none => false)) = false := by
      cases hcf : contactFind st m'.contact_id with
      | none => simp
      | some c => simp [hc c (by rw [← hcid]; exact hcf)]
    simp only [send_single_sms_exc, hm', hproceed, Bool.false_eq_true,
      if_false]
    split
    · refine ⟨?_, by intro st' hst'; simp at hst'⟩
      exact NoSendState_updateMessage_self st mid' ctid _
        (markFailedExc_id now err) (fun m => by simp [markFailedExc]) h'
    · refine ⟨?_, by intro st' hst'; simp at hst'⟩
      exact NoSendState_updateMessage_self st mid' ctid _
        (markFailedExc_id now err) (fun m => by simp [markFailedExc]) h'
  · rcases hsf : msgFind st mid' with _ | msg
    · simp only [send_single_sms_exc, hsf]
      exact ⟨h, by intro st' hst'; simp at hst'⟩
    · simp only [send_single_sms_exc, hsf]
      rcases hpr : (aft &&
          (match contactFind st msg.contact_id with
           | some c => c.is_valid
           | none => false)) with _ | _
      · simp only [Bool.false_eq_true, if_false]
        split
        · refine ⟨?_, by intro st' hst'; simp at hst'⟩
          exact NoSendState_updateMessage_other st mid ctid mid' _
            (fun m => (markFailedExc_id now err m).1) hmm h
        · refine ⟨?_, by intro st' hst'; simp at hst'⟩
          exact NoSendState_updateMessage_other st mid ctid mid' _
            (fun m => (markFailedExc_id now err m).1) hmm h
      · simp only [if_true]
        have hpre : NoSendState mid ctid
            (updateMessage st mid' (markSending now)) :=
          NoSendState_updateMessage_other st mid ctid mid' _
            (fun m => (markSending_id now m).1) hmm h
        have hfin : NoSendState mid ctid
            (updateMessage (updateMessage st mid' (markSending now)) mid'
              (markFailedExc now err)) :=
          NoSendState_updateMessage_other _ mid ctid mid' _
            (fun m => (markFailedExc_id now err m).1) hmm hpre
        split
        · refine ⟨hfin, ?_⟩
          intro st' hst'
          simp only [List.mem_singleton] at hst'
          subst hst'
          exact hpre
        · refine ⟨hfin, ?_⟩
          intro st' hst'
          simp only [List.mem_singleton] at hst'
          subst hst'
          exact hpre

/-- `retry_failed_messages` preserves the invariant: a selected row
becomes `PENDING`, never `SENDING`, and ids and contact references are
untouched. -/
theorem retry_preserves (s : Settings) (st : St) (cid mid ctid : Nat)
    (h : NoSendState mid ctid st) :
    NoSendState mid ctid (retry_failed_messages s st cid).final := by
  obtain ⟨⟨m', hm', hcid, hstat⟩, hc⟩ := h
  have hfind : msgFind (retry_failed_messages s st cid).final mid =
      (msgFind st mid).map
        (fun m => if retryPred s cid m then resetForRetry m else m) := by
    unfold retry_failed_messages msgFind
    dsimp only
    exact map_find?_pres _ _
      (fun m => by by_cases hp : retryPred s cid m <;> simp [hp, resetForRetry])
      st.messages
  refine ⟨⟨_, by rw [hfind, hm']; rfl, ?_, ?_⟩, hc⟩
  · by_cases hp : retryPred s cid m' <;> simp [hp, resetForRetry, hcid]
  · by_cases hp : retryPred s cid m' <;> simp [hp, resetForRetry]
    exact hstat

/-- `send_bulk_sms` touches only the campaign row. -/
theorem bulk_preserves (s : Settings) (st : St) (now cid : Nat)
    (bs : Option Nat) (mid ctid : Nat) (h : NoSendState mid ctid st) :
    NoSendState mid ctid (send_bulk_sms s st now cid bs).final ∧
      ∀ st' ∈ (send_bulk_sms s st now cid bs).commits,
        NoSendState mid ctid st' := by
  rcases hcf : campaignFind st cid with _ | c
  · simp only [send_bulk_sms, hcf]
    exact ⟨h, by intro st' hst'; simp at hst'⟩
  · simp only [send_bulk_sms, hcf]
    split
    · refine ⟨NoSendState_of_same st _ mid ctid rfl rfl h, ?_⟩
      intro st' hst'
      simp only [List.mem_singleton] at hst'
      subst hst'
      exact NoSendState_of_same st _ mid ctid rfl rfl h
    · refine ⟨NoSendState_of_same st _ mid ctid rfl rfl h, ?_⟩
      intro st' hst'
      simp only [List.mem_singleton] at hst'
      subst hst'
      exact NoSendState_of_same st _ mid ctid rfl rfl h

/-- `update_campaign_stats` touches only the campaign row. -/
theorem stats_preserves (st : St) (now cid mid ctid : Nat)
    (h : NoSendState mid ctid st) :
    NoSendState mid ctid (update_campaign_stats st now cid).1 := by
  rcases hcf : campaignFind st cid with _ | c
  · simp only [update_campaign_stats, hcf]
    exact h
  · simp only [update_campaign_stats, hcf]
    exact NoSendState_of_same st _ mid ctid rfl rfl h

/-- Every core operation preserves the invariant, at the final state and
at every intermediate commit. -/
theorem opRun_preserves_NoSendState (s : Settings) (op : Op) (st : St)
    (mid ctid : Nat) (h : NoSendState mid ctid st) :
    NoSendState mid ctid (opRun s op st).2 ∧
      ∀ st' ∈ (opRun s op st).1, NoSendState mid ctid st' := by
  cases op with
  | send now o mid' => exact send_single_preserves s st now o mid' mid ctid h
  | sendExc now err aft mid' =>
      exact send_exc_preserves s st now err aft mid' mid ctid h
  | dispatch now cid bs => exact bulk_preserves s st now cid bs mid ctid h
  | stats now cid =>
      exact ⟨stats_preserves st now cid mid ctid h,
        by intro st' hst'; simp [opRun] at hst'⟩
  | retryOp cid =>
      exact ⟨retry_preserves s st cid mid ctid h,
        by intro st' hst'; simp [opRun] at hst'⟩

/-- The invariant holds at every committed state of every trace. -/
theorem traceStates_NoSendState (s : Settings) (ops : List Op) (st : St)
    (mid ctid : Nat) (h : NoSendState mid ctid st) :
    ∀ st' ∈ traceStates s ops st, NoSendState mid ctid st' := by
  induction ops generalizing st with
  | nil =>
      intro st' hst'
      simp only [traceStates, List.mem_singleton] at hst'
      subst hst'
      exact h
  | cons op ops ih =>
      intro st' hst'
      simp only [traceStates, List.mem_cons, List.mem_append] at hst'
      rcases hst' with rfl | hst' | hst'
      · exact h
      · exact (opRun_preserves_NoSendState s op st mid ctid h).2 st' hst'
      · exact ih (opRun s op st).2
          (opRun_preserves_NoSendState s op st mid ctid h).1 st' hst'

/-- **Claim C7** (counterexample).  At-least-once redelivery: the send job
for message 1 is delivered again after the message already reached
`SENT`; the worker, which never checks the current status, commits the
message back to `SENDING` — the trace of committed statuses is
`SENT, SENDING, SENT`, revisiting `SENDING` after `SENT`. -/
theorem sending_revisited_after_sent_counterexample :
    ((msgFind exStSent 1).map (fun m => m.status) =
      some MessageStatus.SENT) ∧
    ((traceStates settings [Op.send 7 (GetOutcome.ok 200 true []) 1]
        exStSent).map (fun st' => (msgFind st' 1).map (fun m => m.status)) =
      [some MessageStatus.SENT, some MessageStatus.SENDING,
       some MessageStatus.SENT]) := by
  decide

/-- **Claim C7** (amended).  A message that has reached `INVALID_NUMBER`
(whose contact is therefore invalid — or missing) never has status
`SENDING` at any later committed state, under any sequence of core
operations including redeliveries: every path that sets `SENDING` first
checks the contact valid.  After `SENT` the no-revisit guarantee does not
hold: an at-least-once redelivery of the send job flips a `SENT` message
back to `SENDING` (see the counterexample), so for `SENT` it requires
that no send job for the message is delivered again. -/
theorem no_sending_after_invalid_number (s : Settings) (st : St) (mid : Nat)
    (m : Message) (ops : List Op)
    (hm : msgFind st mid = some m)
    (hst : m.status = MessageStatus.INVALID_NUMBER)
    (hc : ∀ c, contactFind st m.contact_id = some c → c.is_valid = false) :
    ∀ st' ∈ traceStates s ops st, ∀ m', msgFind st' mid = some m' →
      m'.status ≠ MessageStatus.SENDING := by
  have h0 : NoSendState mid m.contact_id st :=
    ⟨⟨m, hm, rfl, by rw [hst]; simp⟩, hc⟩
  intro st' hst' m' hm'
  obtain ⟨⟨m'', hm'', hcid, hstat⟩, _⟩ :=
    traceStates_NoSendState s ops st mid m.contact_id h0 st' hst'
  rw [hm'] at hm''
  injection hm'' with heq
  rw [heq]
  exact hstat

/-- Witness for `no_sending_after_invalid_number`: after an
`INVALID_NUMBER` message is run through a retry pass, a redelivered send
job and an exception-path job, the last committed state of the run does
not show it `SENDING`. -/
theorem no_sending_after_invalid_number_witness :
    (msgFind (exStInvTrace.getD 3 exStInv) 1).map (fun m => m.status) ≠
      some MessageStatus.SENDING := by
  intro hcontra
  obtain ⟨m', hm', hs⟩ := Option.map_eq_some'.1 hcontra
  exact no_sending_after_invalid_number settings exStInv 1
    { baseMessage with status := MessageStatus.INVALID_NUMBER,
                       error_message := some "bad", failed_at := some 1 }
    exStInvOps rfl rfl (fun c h => by cases h; rfl)
    (exStInvTrace.getD 3 exStInv) (by decide) m' hm' hs

end BulkSms
